import Mathlib

/-!
Shallow embedding of `src/app/chat/page.tsx` (AgoraLearn chat UI):
the math-span renderer `renderMathInline`, the conversation orchestrator
(`sendQuery`, `pushMessage`), the upload handler `handleUpload`, the voice
handler `handleVoiceInput`'s stop continuation, and the conversation-id
bootstrap, together with theorems settling the specification claims.
-/

namespace AgoraLearn

/-- JavaScript values as they appear in parsed JSON response bodies. -/
inductive Json where
  | null : Json
  | bool (b : Bool) : Json
  | num (n : Int) : Json
  | str (s : String) : Json
  | arr (elems : List Json) : Json
  | obj (fields : List (String × Json)) : Json

/-- Association lookup in an object's field list (first binding wins). -/
def jLookup : List (String × Json) → String → Option Json
  | [], _ => none
  | (k, v) :: rest, key => if k = key then some v else jLookup rest key

/-- `x?.k` followed by nullish coalescing: field access on an object, where a
missing field (JS `undefined`) and a JSON `null` value both yield `none`,
matching how every `?.`/`??` chain in the source treats them. Access on a
non-object yields `none` (the source only ever applies `?.` to values that
JS would give `undefined` for on non-objects). -/
def jGet (j : Json) (key : String) : Option Json :=
  match j with
  | .obj fields =>
    match jLookup fields key with
    | some .null => none
    | o => o
  | _ => none

/-- JS truthiness of a JSON value (`if (x)` / `!x` in the source). -/
def jTruthy : Json → Bool
  | .null => false
  | .bool b => b
  | .num n => n != 0
  | .str s => s != ""
  | .arr _ => true
  | .obj _ => true

mutual

/-- JS `String(x)` coercion, as applied to parsed JSON values. -/
def jsString : Json → String
  | .null => "null"
  | .bool b => if b then "true" else "false"
  | .num n => toString n
  | .str s => s
  | .arr elems => jsStringList elems
  | .obj _ => "[object Object]"

/-- Array element rendering inside `Array.prototype.toString`
(`null` renders as the empty string there). -/
def jsStringElem : Json → String
  | .null => ""
  | .bool b => if b then "true" else "false"
  | .num n => toString n
  | .str s => s
  | .arr elems => jsStringList elems
  | .obj _ => "[object Object]"

/-- Comma-joined element rendering of `Array.prototype.toString`. -/
def jsStringList : List Json → String
  | [] => ""
  | [e] => jsStringElem e
  | e :: rest => jsStringElem e ++ "," ++ jsStringList rest

end

/-!
## Math-span renderer

`renderMathInline` scans its input with the regex `/\$\$(.*?)\$\$|\$(.*?)\$/gs`:
at each position the engine first tries the block alternative `$$(.*?)$$`
(lazy content, so the closing `$$` is the earliest one), then the inline
alternative `$(.*?)$` (closing at the earliest `$`). Text between matches is
emitted as a text span; a match whose capture group is the empty string is
falsy in JS, so `if (match[1]) ... else if (match[2]) ...` emits nothing
for it.
-/

/-- Lazy search for the earliest closing `$$`: returns the content before it
and the characters after it. -/
def findCloseBlock : List Char → Option (List Char × List Char)
  | c1 :: c2 :: rest =>
    if c1 = '$' ∧ c2 = '$' then some ([], rest)
    else (findCloseBlock (c2 :: rest)).map fun p => (c1 :: p.1, p.2)
  | _ => none

/-- Lazy search for the earliest closing `$`: returns the content before it
and the characters after it. -/
def findCloseInline : List Char → Option (List Char × List Char)
  | c :: rest =>
    if c = '$' then some ([], rest)
    else (findCloseInline rest).map fun p => (c :: p.1, p.2)
  | [] => none

/-- Attempt of the alternative `$$(.*?)$$` at the current position. -/
def matchBlockAt (cs : List Char) : Option (List Char × List Char) :=
  match cs with
  | c1 :: c2 :: rest => if c1 = '$' ∧ c2 = '$' then findCloseBlock rest else none
  | _ => none

/-- Attempt of the alternative `$(.*?)$` at the current position. -/
def matchInlineAt (cs : List Char) : Option (List Char × List Char) :=
  match cs with
  | c :: rest => if c = '$' then findCloseInline rest else none
  | [] => none

theorem findCloseBlock_length :
    ∀ (l : List Char) (content r : List Char),
      findCloseBlock l = some (content, r) → r.length < l.length := by
  intro l
  induction l with
  | nil => intro content r h; simp [findCloseBlock] at h
  | cons c1 tl ih =>
    intro content r h
    match tl, ih with
    | [], _ => simp [findCloseBlock] at h
    | c2 :: rest, ih =>
      rw [findCloseBlock] at h
      split at h
      · cases h
        simp only [List.length_cons]
        omega
      · simp only [Option.map_eq_some'] at h
        obtain ⟨p, hp, he⟩ := h
        cases he
        have := ih p.1 p.2 hp
        simp only [List.length_cons] at this ⊢
        omega

theorem findCloseInline_length :
    ∀ (l : List Char) (content r : List Char),
      findCloseInline l = some (content, r) → r.length < l.length := by
  intro l
  induction l with
  | nil => intro content r h; simp [findCloseInline] at h
  | cons c rest ih =>
    intro content r h
    rw [findCloseInline] at h
    split at h
    · cases h
      simp only [List.length_cons]
      omega
    · simp only [Option.map_eq_some'] at h
      obtain ⟨p, hp, he⟩ := h
      cases he
      have := ih p.1 p.2 hp
      simp only [List.length_cons] at this ⊢
      omega

theorem matchBlockAt_length {cs content r} (h : matchBlockAt cs = some (content, r)) :
    r.length < cs.length := by
  match cs with
  | [] => simp [matchBlockAt] at h
  | [c] => simp [matchBlockAt] at h
  | c1 :: c2 :: rest =>
    rw [matchBlockAt] at h
    split at h
    · have := findCloseBlock_length _ _ _ h
      simp only [List.length_cons]
      omega
    · cases h

theorem matchInlineAt_length {cs content r} (h : matchInlineAt cs = some (content, r)) :
    r.length < cs.length := by
  match cs with
  | [] => simp [matchInlineAt] at h
  | c :: rest =>
    rw [matchInlineAt] at h
    split at h
    · have := findCloseInline_length _ _ _ h
      simp only [List.length_cons]
      omega
    · cases h

/-- A renderable span produced by `renderMathInline`: plain text, a
`BlockMath` element, or an `InlineMath` element. -/
inductive Span where
  | text (s : String) : Span
  | block (math : String) : Span
  | inl (math : String) : Span

/-- Prepend the pending text run (the slice from `lastIndex` to the current
match, held in reverse) as a text span when it is non-empty. -/
def flushText (acc : List Char) (spans : List Span) : List Span :=
  if acc.isEmpty then spans else .text (String.mk acc.reverse) :: spans

/-- The `while ((match = regex.exec(content)) !== null)` loop. `acc` holds, in
reverse, the characters from `lastIndex` up to the scan position. An empty
capture group is falsy in JS, so it emits no math element. -/
def scanSpans (acc : List Char) (cs : List Char) : List Span :=
  match hcs : cs with
  | [] => flushText acc []
  | c :: rest =>
    match hb : matchBlockAt cs with
    | some (content, r) =>
      flushText acc ((if content.isEmpty then [] else [.block (String.mk content)]) ++
        scanSpans [] r)
    | none =>
      match hi : matchInlineAt cs with
      | some (content, r) =>
        flushText acc ((if content.isEmpty then [] else [.inl (String.mk content)]) ++
          scanSpans [] r)
      | none => scanSpans (c :: acc) rest
termination_by cs.length
decreasing_by
  · exact hcs ▸ matchBlockAt_length hb
  · exact hcs ▸ matchInlineAt_length hi
  · simp [hcs]

/-- `renderMathInline` from the source, as the list of spans it renders. -/
def renderMathInline (content : String) : List Span :=
  scanSpans [] content.data

/-- The content of a span, its type tag ignored. -/
def spanContent : Span → String
  | .text s => s
  | .block m => m
  | .inl m => m

/-- Concatenation of the contents of a span list, in order. -/
def concatSpans : List Span → String
  | [] => ""
  | sp :: rest => spanContent sp ++ concatSpans rest

/-- The input with the dollar delimiters of each math segment removed: math
segments are located exactly as the scan locates them, and their `$`/`$$`
fences are dropped while their contents and all plain text are kept. -/
def stripMathDelims (cs : List Char) : List Char :=
  match hcs : cs with
  | [] => []
  | c :: rest =>
    match hb : matchBlockAt cs with
    | some (content, r) => content ++ stripMathDelims r
    | none =>
      match hi : matchInlineAt cs with
      | some (content, r) => content ++ stripMathDelims r
      | none => c :: stripMathDelims rest
termination_by cs.length
decreasing_by
  · exact hcs ▸ matchBlockAt_length hb
  · exact hcs ▸ matchInlineAt_length hi
  · simp [hcs]

/-- Every math delimiter is balanced (properly terminated): each `$` either
opens a block segment closed by `$$` or an inline segment closed by `$`, so
the scan never meets a stray dollar. -/
def balancedMath (cs : List Char) : Bool :=
  match hcs : cs with
  | [] => true
  | c :: rest =>
    match hb : matchBlockAt cs with
    | some (_, r) => balancedMath r
    | none =>
      match hi : matchInlineAt cs with
      | some (_, r) => balancedMath r
      | none => c ≠ '$' && balancedMath rest
termination_by cs.length
decreasing_by
  · exact hcs ▸ matchBlockAt_length hb
  · exact hcs ▸ matchInlineAt_length hi
  · simp [hcs]

/-!
## Data model and component state
-/

/-- `type Role = "user" | "assistant"`. -/
inductive Role where
  | user : Role
  | assistant : Role
deriving DecidableEq

/-- `type Message = { id, role, content, createdAt? }`. -/
structure Message where
  id : String
  role : Role
  content : String
  createdAt : Option String
deriving DecidableEq

/-- The stored document from the server: `{ id, name }` as built in
`handleUpload` (the values come from the parsed response, so they are JSON
values at runtime). -/
structure UploadedDoc where
  id : Json
  name : Json

/-- `makeId`: a fresh identifier with the given text prepended. The source
draws on `crypto.randomUUID()`; the model draws on a counter threaded
through the state, which keeps identifiers unique per session. -/
def makeId (pre : String) (n : Nat) : String := pre ++ toString n

/-- The component state of `ChatPage`: one field per `useState` hook (plus
`storedConvId` for the `localStorage` cell, `nextId` for the identifier
supply, and `now` for the ambient clock read by `new Date().toISOString()`). -/
structure ChatState where
  messages : List Message
  inputValue : String
  isLoading : Bool
  uploadedFile : Option String
  uploadedDoc : Option UploadedDoc
  isUploading : Bool
  uploadProgress : Option Nat
  isRecording : Bool
  showUploadModal : Bool
  isDragging : Bool
  showSuccess : Bool
  error : Option String
  referencePopup : Bool
  referenceText : String
  popupPosition : Option (Int × Int)
  selectedText : Option String
  conversationId : Option String
  storedConvId : Option String
  nextId : Nat
  now : String

/-- The initial welcome message of the `useState` initializer. -/
def welcomeMessage (now : String) : Message :=
  ⟨"welcome", .assistant,
   "Hello! I'm here to help you with your documents. Ask me any questions.",
   some now⟩

/-- The component's state on mount: `stored` is the value under the
`localStorage` key `agoralearn:conversationId` (read by the `useState`
initializer), `now` the mount time. -/
def initState (stored : Option String) (now : String) : ChatState where
  messages := [welcomeMessage now]
  inputValue := ""
  isLoading := false
  uploadedFile := none
  uploadedDoc := none
  isUploading := false
  uploadProgress := none
  isRecording := false
  showUploadModal := false
  isDragging := false
  showSuccess := false
  error := none
  referencePopup := false
  referenceText := ""
  popupPosition := none
  selectedText := none
  conversationId := stored
  storedConvId := stored
  nextId := 0
  now := now

/-- `pushMessage`: append one message to the log. -/
def pushMessage (m : Message) (s : ChatState) : ChatState :=
  { s with messages := s.messages ++ [m] }

/-- The `useEffect` that bootstraps the conversation id: when
`conversationId` is falsy (`null` or the empty string), generate a fresh id
and store it under the fixed key; otherwise do nothing. -/
def convEffect (n : Nat) (s : ChatState) : ChatState :=
  if s.conversationId = none ∨ s.conversationId = some "" then
    let id := makeId "conv-" n
    { s with conversationId := some id, storedConvId := some id }
  else s

/-!
## Conversation orchestrator: `sendQuery`
-/

/-- ECMAScript WhiteSpace / LineTerminator, as recognised by
`String.prototype.trim` (the common characters; exotic Unicode space
separators are omitted, none of which the component ever produces). -/
def isJsSpace (c : Char) : Bool :=
  c = ' ' || c = '\t' || c = '\n' || c = '\r' ||
    c = '\x0b' || c = '\x0c' || c.toNat = 0xa0 || c.toNat = 0xfeff

/-- JS `s.trim()`: strip leading and trailing whitespace. -/
def jsTrim (s : String) : String :=
  String.mk ((s.data.dropWhile isJsSpace).reverse.dropWhile isJsSpace).reverse

/-- Resolution of the `fetch` to `/api/converse`: a success carries the
parsed JSON body; `!res.ok` throws `Server error ${status}`; a network
failure or a `res.json()` failure rejects with an error message. -/
inductive ConverseOutcome where
  | success (body : Json) : ConverseOutcome
  | httpError (status : Nat) : ConverseOutcome
  | netError (msg : String) : ConverseOutcome

/-- The request body of `sendQuery`: `{ query }`, plus `docId` when an
uploaded document is active (objects are always truthy), plus
`conversationId` when that string is truthy (non-null and non-empty). -/
def conversePayload (queryText : String) (doc : Option UploadedDoc)
    (cid : Option String) : List (String × Json) :=
  [("query", Json.str queryText)]
    ++ (match doc with
        | some d => [("docId", d.id)]
        | none => [])
    ++ (match cid with
        | some c => if c = "" then [] else [("conversationId", Json.str c)]
        | none => [])

/-- `body?.answer ?? body?.assistantText ?? (typeof body === "string" ? body : "")`,
then `String(...)`. -/
def converseAnswer (body : Json) : String :=
  jsString ((jGet body "answer" <|> jGet body "assistantText").getD
    (match body with
     | .str s => .str s
     | _ => .str ""))

/-- The fixed fallback assistant text of `sendQuery`'s catch branch. -/
def fallbackText : String := "Sorry — something went wrong."

/-- The part of `sendQuery` that runs before the network round trip: set
the loading flag, clear the error, append the optimistic user message, and
build the request payload. -/
def sendQueryStart (queryText : String) (s : ChatState) :
    ChatState × List (String × Json) :=
  let userMsg : Message := ⟨makeId "u-" s.nextId, .user, queryText, some s.now⟩
  let s1 := pushMessage userMsg { s with isLoading := true, error := none, nextId := s.nextId + 1 }
  (s1, conversePayload queryText s.uploadedDoc s.conversationId)

/-- The part of `sendQuery` that runs when the request resolves: on success
append the assistant answer; on failure append the fallback message and
record the error text (`String(err?.message ?? "Error")`); either way clear
the loading flag. -/
def sendQueryFinish (outcome : ConverseOutcome) (s : ChatState) : ChatState :=
  match outcome with
  | .success body =>
    let m : Message := ⟨makeId "a-" s.nextId, .assistant, converseAnswer body, none⟩
    { pushMessage m s with nextId := s.nextId + 1, isLoading := false }
  | .httpError status =>
    let m : Message := ⟨makeId "a-" s.nextId, .assistant, fallbackText, none⟩
    { pushMessage m s with
      nextId := s.nextId + 1
      isLoading := false
      error := some ("Server error " ++ toString status) }
  | .netError msg =>
    let m : Message := ⟨makeId "a-" s.nextId, .assistant, fallbackText, none⟩
    { pushMessage m s with
      nextId := s.nextId + 1
      isLoading := false
      error := some msg }

/-- `sendQuery`: guard on the trimmed query, then the two phases above.
Returns the new state and the request body actually sent (`none` when the
guard returns early and no request is issued). -/
def sendQuery (queryText : String) (outcome : ConverseOutcome) (s : ChatState) :
    ChatState × Option (List (String × Json)) :=
  if jsTrim queryText = "" then (s, none)
  else
    let (s1, payload) := sendQueryStart queryText s
    (sendQueryFinish outcome s1, some payload)

/-- `handleSendMessage`: guard on the trimmed input, send it, clear the
input field. -/
def handleSendMessage (outcome : ConverseOutcome) (s : ChatState) : ChatState :=
  if jsTrim s.inputValue = "" then s
  else { (sendQuery s.inputValue outcome s).1 with inputValue := "" }

/-- `handleAskAgoraLearn`: send the currently selected text, if any. -/
def handleAskAgoraLearn (outcome : ConverseOutcome) (s : ChatState) : ChatState :=
  match s.selectedText with
  | none => s
  | some t => (sendQuery t outcome { s with referencePopup := false }).1

/-!
## Upload handler
-/

/-- Resolution of `uploadWithProgress`: a 2xx status resolves with the
parsed JSON body (a 2xx body that fails to parse resolves with the raw
text, i.e. a `Json.str`); a non-2xx status rejects with
`Upload failed: ${status}`; `xhr.onerror` rejects with
`Upload network error`. -/
inductive UploadOutcome where
  | success (data : Json) : UploadOutcome
  | httpError (status : Nat) : UploadOutcome
  | netError : UploadOutcome

/-- `data?.file?.id ?? data?.docId ?? data?.id`. -/
def uploadId (data : Json) : Option Json :=
  ((jGet data "file").bind fun f => jGet f "id") <|> jGet data "docId" <|> jGet data "id"

/-- `data?.file?.name ?? uploadedFile.name`. -/
def uploadName (data : Json) (localName : String) : Json :=
  ((jGet data "file").bind fun f => jGet f "name").getD (Json.str localName)

/-- `handleUpload`: no-op without a selected file; otherwise set the upload
flags, run the transfer, and on success extract the id (throwing
`Upload response missing id` when the extracted id is falsy or absent) and
replace the stored document; the `finally` clause clears the flags. -/
def handleUpload (outcome : UploadOutcome) (s : ChatState) : ChatState :=
  match s.uploadedFile with
  | none => s
  | some localName =>
    let s1 := { s with isUploading := true, error := none, uploadProgress := some 0 }
    let s2 :=
      match outcome with
      | .success data =>
        match uploadId data with
        | some id =>
          if jTruthy id then
            { s1 with
              uploadedDoc := some ⟨id, uploadName data localName⟩
              uploadedFile := none
              showSuccess := true }
          else { s1 with error := some "Upload response missing id" }
        | none => { s1 with error := some "Upload response missing id" }
      | .httpError status => { s1 with error := some ("Upload failed: " ++ toString status) }
      | .netError => { s1 with error := some "Upload network error" }
    { s2 with isUploading := false, uploadProgress := none }

/-!
## Voice handler
-/

/-- Resolution of the `fetch` to `/api/voice-query`: success carries the
parsed JSON body; `!rsp.ok` throws `STT failed`; a network or parse
failure also lands in the catch branch. -/
inductive VoiceOutcome where
  | success (j : Json) : VoiceOutcome
  | httpError : VoiceOutcome
  | netError : VoiceOutcome

/-- `j?.question ?? j?.transcript`. -/
def voiceTranscript (j : Json) : Option Json :=
  jGet j "question" <|> jGet j "transcript"

/-- The `mr.onstop` continuation of `handleVoiceInput`: clear the recording
flag, send the audio for transcription, and either forward a non-empty
string transcript to `sendQuery` or push the fixed notice; any transport
failure pushes `Voice processing failed.`. Returns the new state together
with the `/api/converse` request body, if one was sent. -/
def handleVoiceStop (vo : VoiceOutcome) (co : ConverseOutcome) (s : ChatState) :
    ChatState × Option (List (String × Json)) :=
  let s0 := { s with isRecording := false }
  match vo with
  | .success j =>
    match voiceTranscript j with
    | some (.str t) =>
      if jsTrim t = "" then
        (pushMessage ⟨makeId "a-" s0.nextId, .assistant, "I couldn't hear a question.", none⟩
           { s0 with nextId := s0.nextId + 1 }, none)
      else sendQuery t co s0
    | some _ =>
      (pushMessage ⟨makeId "a-" s0.nextId, .assistant, "I couldn't hear a question.", none⟩
         { s0 with nextId := s0.nextId + 1 }, none)
    | none =>
      (pushMessage ⟨makeId "a-" s0.nextId, .assistant, "I couldn't hear a question.", none⟩
         { s0 with nextId := s0.nextId + 1 }, none)
  | .httpError =>
    (pushMessage ⟨makeId "a-" s0.nextId, .assistant, "Voice processing failed.", none⟩
       { s0 with nextId := s0.nextId + 1 }, none)
  | .netError =>
    (pushMessage ⟨makeId "a-" s0.nextId, .assistant, "Voice processing failed.", none⟩
       { s0 with nextId := s0.nextId + 1 }, none)

/-!
## The event-step relation

One constructor per state-changing handler of the component, so that
reachability quantifies over everything the UI can do.
-/

/-- One user- or network-driven event of `ChatPage`. -/
inductive Step : ChatState → ChatState → Prop
  | convInit (n : Nat) (s : ChatState) : Step s (convEffect n s)
  | typeInput (v : String) (s : ChatState) : Step s { s with inputValue := v }
  | send (q : String) (co : ConverseOutcome) (s : ChatState) :
      Step s (sendQuery q co s).1
  | sendFromInput (co : ConverseOutcome) (s : ChatState) :
      Step s (handleSendMessage co s)
  | askSelection (co : ConverseOutcome) (s : ChatState) :
      Step s (handleAskAgoraLearn co s)
  | fileSelect (f : String) (s : ChatState) : Step s { s with uploadedFile := some f }
  | fileDeselect (s : ChatState) : Step s { s with uploadedFile := none }
  | upload (o : UploadOutcome) (s : ChatState) : Step s (handleUpload o s)
  | uploadProgressTick (p : Nat) (s : ChatState) : Step s { s with uploadProgress := some p }
  | voiceStartOk (s : ChatState) : Step s { s with isRecording := true }
  | voiceStartFail (s : ChatState) :
      Step s { s with
               isRecording := false
               error := some "Microphone access denied or unavailable." }
  | voiceStop (vo : VoiceOutcome) (co : ConverseOutcome) (s : ChatState) :
      Step s (handleVoiceStop vo co s).1
  | mouseUpClear (s : ChatState) :
      Step s { s with popupPosition := none, selectedText := none }
  | mouseUpSelect (t : String) (pos : Int × Int) (s : ChatState) :
      Step s { s with selectedText := some t, popupPosition := some pos }
  | openModal (s : ChatState) : Step s { s with showUploadModal := true }
  | closeModal (s : ChatState) : Step s { s with showUploadModal := false }
  | dragState (b : Bool) (s : ChatState) : Step s { s with isDragging := b }
  | successTimeout (s : ChatState) : Step s { s with showSuccess := false }
  | removeDoc (s : ChatState) : Step s { s with uploadedDoc := none }
  | setRefText (t : String) (s : ChatState) : Step s { s with referenceText := t }
  | useRef (s : ChatState) :
      Step s { s with
               inputValue := "Reference: \x22" ++ s.referenceText ++ "\x22\n"
               referencePopup := false }
  | cancelRef (s : ChatState) : Step s { s with referencePopup := false }
  | exportOk (s : ChatState) : Step s s
  | exportFail (s : ChatState) : Step s { s with error := some "Export failed" }

/-- States reachable from a fresh mount by any sequence of events. -/
inductive Reachable : ChatState → Prop
  | init (stored : Option String) (now : String) : Reachable (initState stored now)
  | step {s s' : ChatState} : Reachable s → Step s s' → Reachable s'

/-!
## Unfolding lemmas for the scan
-/

theorem scanSpans_nil (acc : List Char) : scanSpans acc [] = flushText acc [] := by
  rw [scanSpans]

theorem scanSpans_block (acc : List Char) (c : Char) (rest content r : List Char)
    (hb : matchBlockAt (c :: rest) = some (content, r)) :
    scanSpans acc (c :: rest) =
      flushText acc ((if content.isEmpty then [] else [Span.block (String.mk content)]) ++
        scanSpans [] r) := by
  rw [scanSpans]
  split
  case h_1 content2 r2 heq => rw [hb] at heq; cases heq; rfl
  case h_2 heq => rw [hb] at heq; simp at heq

theorem scanSpans_inl (acc : List Char) (c : Char) (rest content r : List Char)
    (hb : matchBlockAt (c :: rest) = none)
    (hi : matchInlineAt (c :: rest) = some (content, r)) :
    scanSpans acc (c :: rest) =
      flushText acc ((if content.isEmpty then [] else [Span.inl (String.mk content)]) ++
        scanSpans [] r) := by
  rw [scanSpans]
  split
  case h_1 content2 r2 heq => rw [hb] at heq; simp at heq
  case h_2 heq =>
    split
    case h_1 content2 r2 heq2 => rw [hi] at heq2; cases heq2; rfl
    case h_2 heq2 => rw [hi] at heq2; simp at heq2

theorem scanSpans_text (acc : List Char) (c : Char) (rest : List Char)
    (hb : matchBlockAt (c :: rest) = none)
    (hi : matchInlineAt (c :: rest) = none) :
    scanSpans acc (c :: rest) = scanSpans (c :: acc) rest := by
  rw [scanSpans]
  split
  case h_1 content r heq => rw [hb] at heq; simp at heq
  case h_2 heq =>
    split
    case h_1 content r heq2 => rw [hi] at heq2; simp at heq2
    case h_2 => rfl

theorem stripMathDelims_nil : stripMathDelims [] = [] := by
  rw [stripMathDelims]

theorem stripMathDelims_block (c : Char) (rest content r : List Char)
    (hb : matchBlockAt (c :: rest) = some (content, r)) :
    stripMathDelims (c :: rest) = content ++ stripMathDelims r := by
  rw [stripMathDelims]
  split
  case h_1 content2 r2 heq => rw [hb] at heq; cases heq; rfl
  case h_2 heq => rw [hb] at heq; simp at heq

theorem stripMathDelims_inl (c : Char) (rest content r : List Char)
    (hb : matchBlockAt (c :: rest) = none)
    (hi : matchInlineAt (c :: rest) = some (content, r)) :
    stripMathDelims (c :: rest) = content ++ stripMathDelims r := by
  rw [stripMathDelims]
  split
  case h_1 content2 r2 heq => rw [hb] at heq; simp at heq
  case h_2 heq =>
    split
    case h_1 content2 r2 heq2 => rw [hi] at heq2; cases heq2; rfl
    case h_2 heq2 => rw [hi] at heq2; simp at heq2

theorem stripMathDelims_text (c : Char) (rest : List Char)
    (hb : matchBlockAt (c :: rest) = none)
    (hi : matchInlineAt (c :: rest) = none) :
    stripMathDelims (c :: rest) = c :: stripMathDelims rest := by
  rw [stripMathDelims]
  split
  case h_1 content r heq => rw [hb] at heq; simp at heq
  case h_2 heq =>
    split
    case h_1 content r heq2 => rw [hi] at heq2; simp at heq2
    case h_2 => rfl

theorem mkStr_append (a b : List Char) : String.mk a ++ String.mk b = String.mk (a ++ b) := rfl

theorem mkStr_nil : String.mk [] = "" := rfl

theorem concatSpans_append (a b : List Span) :
    concatSpans (a ++ b) = concatSpans a ++ concatSpans b := by
  induction a with
  | nil => simp [concatSpans]
  | cons sp rest ih => simp [concatSpans, ih, String.append_assoc]

theorem concatSpans_flushText (acc : List Char) (l : List Span) :
    concatSpans (flushText acc l) = String.mk acc.reverse ++ concatSpans l := by
  unfold flushText
  split
  next h =>
    rw [List.isEmpty_iff.mp h]
    simp [mkStr_nil, String.empty_append]
  next h =>
    rw [concatSpans]
    rfl

/-- The heart of the round-trip property: the scan loop's output concatenates
to the pending text plus the delimiter-stripped remainder of the input. -/
theorem concatSpans_scanSpans (acc cs : List Char) :
    concatSpans (scanSpans acc cs) = String.mk (acc.reverse ++ stripMathDelims cs) := by
  induction acc, cs using scanSpans.induct with
  | case1 acc =>
    rw [scanSpans_nil, stripMathDelims_nil, concatSpans_flushText]
    simp [concatSpans, String.append_empty]
  | case2 acc c rest content r hb ih =>
    rw [scanSpans_block acc c rest content r hb, stripMathDelims_block c rest content r hb,
      concatSpans_flushText, concatSpans_append, ih]
    by_cases hc : content.isEmpty
    · rw [List.isEmpty_iff.mp hc]
      simp [concatSpans, mkStr_nil, String.empty_append, mkStr_append]
    · simp only [hc, Bool.false_eq_true, if_false]
      simp [concatSpans, spanContent, String.append_empty, mkStr_append]
  | case3 acc c rest content r hb hi ih =>
    rw [scanSpans_inl acc c rest content r hb hi, stripMathDelims_inl c rest content r hb hi,
      concatSpans_flushText, concatSpans_append, ih]
    by_cases hc : content.isEmpty
    · rw [List.isEmpty_iff.mp hc]
      simp [concatSpans, mkStr_nil, String.empty_append, mkStr_append]
    · simp only [hc, Bool.false_eq_true, if_false]
      simp [concatSpans, spanContent, String.append_empty, mkStr_append]
  | case4 acc c rest hb hi ih =>
    rw [scanSpans_text acc c rest hb hi, stripMathDelims_text c rest hb hi, ih]
    simp

theorem matchBlockAt_not_dollar {c : Char} (h : c ≠ '$') (rest : List Char) :
    matchBlockAt (c :: rest) = none := by
  cases rest with
  | nil => rfl
  | cons c2 r => simp [matchBlockAt, h]

theorem matchInlineAt_not_dollar {c : Char} (h : c ≠ '$') (rest : List Char) :
    matchInlineAt (c :: rest) = none := by
  simp [matchInlineAt, h]

/-- On dollar-free input the scan only ever extends the pending text. -/
theorem scanSpans_no_dollar (cs : List Char) (h : ∀ c ∈ cs, c ≠ '$') :
    ∀ acc, scanSpans acc cs = flushText (cs.reverse ++ acc) [] := by
  induction cs with
  | nil => intro acc; rw [scanSpans_nil]; simp
  | cons c rest ih =>
    intro acc
    rw [scanSpans_text acc c rest (matchBlockAt_not_dollar (h c (by simp)) rest)
        (matchInlineAt_not_dollar (h c (by simp)) rest),
      ih (fun x hx => h x (by simp [hx])) (c :: acc)]
    simp

/-!
## Claim theorems for the math-span renderer
-/

/-- C2: for every input string whose dollar delimiters are all balanced,
concatenating the contents of the spans produced by `renderMathInline`, in
order and ignoring the span-type tags, yields exactly the original string
with the dollar delimiters of each math segment removed. -/
theorem claim_C2 (s : String) (hbal : balancedMath s.data = true) :
    concatSpans (renderMathInline s) = String.mk (stripMathDelims s.data) := by
  have h := concatSpans_scanSpans [] s.data
  simpa [renderMathInline] using h

/-- Witness for C2 at the concrete input `a$$x+1$$b$y$c`. -/
theorem claim_C2_witness :
    balancedMath "a$$x+1$$b$y$c".data = true ∧
      concatSpans (renderMathInline "a$$x+1$$b$y$c") =
        String.mk (stripMathDelims "a$$x+1$$b$y$c".data) := by
  have hbal : balancedMath "a$$x+1$$b$y$c".data = true := by
    simp [balancedMath, matchBlockAt, matchInlineAt, findCloseBlock, findCloseInline]
  exact ⟨hbal, claim_C2 _ hbal⟩

/-- C6, counterexample: on the empty string (which contains no dollar
character) the renderer produces no span at all — the `while` loop finds no
match and `lastIndex < content.length` fails — so the claimed "exactly one
text span equal to the input" is false at the empty string. -/
theorem claim_C6_counterexample : ¬ (renderMathInline "" = [Span.text ""]) := by
  have h0 : renderMathInline "" = [] := by
    simp [renderMathInline, scanSpans_nil, flushText]
  intro h
  rw [h0] at h
  exact List.noConfusion h

/-- C6, amended: for every NON-EMPTY input string containing no dollar
character, `renderMathInline` produces exactly one text span whose content
equals the input (the empty string instead produces no span). -/
theorem claim_C6 (s : String) (hne : s ≠ "") (h : ∀ c ∈ s.data, c ≠ '$') :
    renderMathInline s = [Span.text s] := by
  have hd : s.data ≠ [] := by
    intro hl
    apply hne
    cases s with
    | mk l =>
      simp only [String.data] at hl
      rw [hl]
  unfold renderMathInline
  rw [scanSpans_no_dollar s.data h []]
  unfold flushText
  split
  next hh => exact absurd (List.isEmpty_iff.mp hh) (by simpa using hd)
  next hh => simp

/-- Witness for C6 at the concrete input `abc`. -/
theorem claim_C6_witness :
    ("abc" ≠ "" ∧ ∀ c ∈ "abc".data, c ≠ '$') ∧
      renderMathInline "abc" = [Span.text "abc"] :=
  ⟨⟨by decide, by decide⟩, claim_C6 "abc" (by decide) (by decide)⟩

/-!
## Claim theorems for the conversation orchestrator
-/
/-- C9: for every query text whose trimmed form is empty, `sendQuery` returns
immediately: no message is appended, no flag or error is touched, no request
is issued — the state is returned exactly unchanged and the request is
`none`. -/
theorem claim_C9 (q : String) (outcome : ConverseOutcome) (s : ChatState)
    (hq : jsTrim q = "") : sendQuery q outcome s = (s, none) := by
  simp [sendQuery, hq]

/-- Witness for C9 at the concrete whitespace query. -/
theorem claim_C9_witness :
    jsTrim "  " = "" ∧ sendQuery "  " (.netError "boom") (initState none "t") =
      (initState none "t", none) :=
  ⟨by decide, claim_C9 "  " (.netError "boom") (initState none "t") (by decide)⟩

/-- C1: for every query non-empty after trimming, `sendQuery` (1) appends
exactly one user message carrying the query text before the network phase;
(2) sends a body that always carries `query`, carries `docId` iff a document
is active, and carries `conversationId` iff a conversation id is set (the
component never stores the empty string, hence the second hypothesis);
(3) on success appends exactly one assistant message whose content is
`converseAnswer` of the body — `answer`, else `assistantText`, else the raw
string body. -/
theorem claim_C1 (q : String) (s : ChatState) (body : Json) (outcome : ConverseOutcome)
    (hq : jsTrim q ≠ "") (hcid : s.conversationId ≠ some "") :
    (sendQueryStart q s).1.messages =
        s.messages ++ [⟨makeId "u-" s.nextId, Role.user, q, some s.now⟩] ∧
      (sendQuery q outcome s).2 = some (conversePayload q s.uploadedDoc s.conversationId) ∧
      List.lookup "query" (conversePayload q s.uploadedDoc s.conversationId) =
        some (Json.str q) ∧
      ((List.lookup "docId" (conversePayload q s.uploadedDoc s.conversationId)).isSome ↔
        s.uploadedDoc.isSome) ∧
      ((List.lookup "conversationId"
          (conversePayload q s.uploadedDoc s.conversationId)).isSome ↔
        s.conversationId.isSome) ∧
      (sendQuery q (ConverseOutcome.success body) s).1.messages =
        (sendQueryStart q s).1.messages ++
          [⟨makeId "a-" (s.nextId + 1), Role.assistant, converseAnswer body, none⟩] := by
  refine ⟨?_, ?_, ?_, ?_, ?_, ?_⟩
  · simp [sendQueryStart, pushMessage]
  · simp [sendQuery, hq, sendQueryStart]
  · cases s.uploadedDoc <;> simp [conversePayload]
  · cases s.uploadedDoc <;> cases hc : s.conversationId <;>
      simp [conversePayload, List.lookup]
  · rcases hd : s.uploadedDoc with _ | d <;> rcases hc : s.conversationId with _ | c
    · simp [conversePayload, List.lookup]
    · have hcne : c ≠ "" := by
        intro h
        rw [h] at hc
        exact hcid hc
      simp [conversePayload, List.lookup, hcne]
    · simp [conversePayload, List.lookup]
    · have hcne : c ≠ "" := by
        intro h
        rw [h] at hc
        exact hcid hc
      simp [conversePayload, List.lookup, hcne]
  · simp [sendQuery, hq, sendQueryStart, sendQueryFinish, pushMessage]

/-- C3: for every failing query (non-success HTTP status or network error),
`sendQuery` appends exactly one assistant message with the fixed fallback
text after the optimistic user message; all earlier log entries are
untouched — the log is only appended to. -/
theorem claim_C3 (q : String) (s : ChatState) (outcome : ConverseOutcome)
    (hq : jsTrim q ≠ "")
    (hfail : ∀ body, outcome ≠ ConverseOutcome.success body) :
    (sendQuery q outcome s).1.messages =
      s.messages ++
        [⟨makeId "u-" s.nextId, Role.user, q, some s.now⟩,
         ⟨makeId "a-" (s.nextId + 1), Role.assistant, fallbackText, none⟩] := by
  cases outcome with
  | success body => exact absurd rfl (hfail body)
  | httpError status =>
    simp [sendQuery, hq, sendQueryStart, sendQueryFinish, pushMessage]
  | netError msg =>
    simp [sendQuery, hq, sendQueryStart, sendQueryFinish, pushMessage]



/-- Witness for C1: the spec's own example, query `What is x?` with no
active document and a set conversation id. -/
theorem claim_C1_witness :
    (jsTrim "What is x?" ≠ "" ∧
        (initState (some "conv-7") "t").conversationId ≠ some "") ∧
      ((sendQueryStart "What is x?" (initState (some "conv-7") "t")).1.messages =
          (initState (some "conv-7") "t").messages ++
            [⟨makeId "u-" (initState (some "conv-7") "t").nextId, Role.user, "What is x?",
              some (initState (some "conv-7") "t").now⟩] ∧
        (sendQuery "What is x?" (.success (Json.obj [("answer", Json.str "42")]))
            (initState (some "conv-7") "t")).2 =
          some (conversePayload "What is x?" (initState (some "conv-7") "t").uploadedDoc
            (initState (some "conv-7") "t").conversationId) ∧
        List.lookup "query" (conversePayload "What is x?"
            (initState (some "conv-7") "t").uploadedDoc
            (initState (some "conv-7") "t").conversationId) =
          some (Json.str "What is x?") ∧
        ((List.lookup "docId" (conversePayload "What is x?"
            (initState (some "conv-7") "t").uploadedDoc
            (initState (some "conv-7") "t").conversationId)).isSome ↔
          (initState (some "conv-7") "t").uploadedDoc.isSome) ∧
        ((List.lookup "conversationId" (conversePayload "What is x?"
            (initState (some "conv-7") "t").uploadedDoc
            (initState (some "conv-7") "t").conversationId)).isSome ↔
          (initState (some "conv-7") "t").conversationId.isSome) ∧
        (sendQuery "What is x?" (ConverseOutcome.success (Json.obj [("answer", Json.str "42")]))
            (initState (some "conv-7") "t")).1.messages =
          (sendQueryStart "What is x?" (initState (some "conv-7") "t")).1.messages ++
            [⟨makeId "a-" ((initState (some "conv-7") "t").nextId + 1), Role.assistant,
              converseAnswer (Json.obj [("answer", Json.str "42")]), none⟩]) :=
  ⟨⟨by decide, by decide⟩,
   claim_C1 "What is x?" (initState (some "conv-7") "t")
     (Json.obj [("answer", Json.str "42")])
     (.success (Json.obj [("answer", Json.str "42")])) (by decide) (by decide)⟩

/-- Witness for C3 at a simulated 500 status. -/
theorem claim_C3_witness :
    (jsTrim "hi" ≠ "" ∧
        ∀ body, ConverseOutcome.httpError 500 ≠ ConverseOutcome.success body) ∧
      (sendQuery "hi" (.httpError 500) (initState (some "conv-7") "t")).1.messages =
        (initState (some "conv-7") "t").messages ++
          [⟨makeId "u-" (initState (some "conv-7") "t").nextId, Role.user, "hi",
              some (initState (some "conv-7") "t").now⟩,
           ⟨makeId "a-" ((initState (some "conv-7") "t").nextId + 1), Role.assistant,
              fallbackText, none⟩] :=
  ⟨⟨by decide, fun _ h => nomatch h⟩,
   claim_C3 "hi" (initState (some "conv-7") "t") (.httpError 500) (by decide)
     (fun _ h => nomatch h)⟩

/-- C4: for every upload response carrying a (truthy) document identifier —
extracted from `file.id`, else `docId`, else `id` — `handleUpload` replaces
the active document with that identifier paired with the display name from
`file.name`, else the local file's name, discarding any previous document. -/
theorem claim_C4 (data : Json) (s : ChatState) (localName : String) (id : Json)
    (hf : s.uploadedFile = some localName)
    (hid : uploadId data = some id) (htr : jTruthy id = true) :
    (handleUpload (.success data) s).uploadedDoc =
      some ⟨id, uploadName data localName⟩ := by
  simp [handleUpload, hf, hid, htr]

/-- Witness for C4: the spec's example `{file:{id:"d1",name:"a.pdf"}}`, with
a previously active document that gets discarded. -/
theorem claim_C4_witness :
    (({ initState none "t" with
          uploadedFile := some "a.pdf"
          uploadedDoc := some ⟨Json.str "old", Json.str "old.pdf"⟩ } :
        ChatState).uploadedFile = some "a.pdf" ∧
      uploadId (Json.obj [("file", Json.obj [("id", Json.str "d1"), ("name", Json.str "a.pdf")])]) =
        some (Json.str "d1") ∧
      jTruthy (Json.str "d1") = true) ∧
    (handleUpload (.success (Json.obj [("file",
        Json.obj [("id", Json.str "d1"), ("name", Json.str "a.pdf")])]))
      { initState none "t" with
          uploadedFile := some "a.pdf"
          uploadedDoc := some ⟨Json.str "old", Json.str "old.pdf"⟩ }).uploadedDoc =
      some ⟨Json.str "d1", Json.str "a.pdf"⟩ :=
  ⟨⟨rfl, rfl, by decide⟩,
   claim_C4 (Json.obj [("file", Json.obj [("id", Json.str "d1"), ("name", Json.str "a.pdf")])])
     { initState none "t" with
         uploadedFile := some "a.pdf"
         uploadedDoc := some ⟨Json.str "old", Json.str "old.pdf"⟩ }
     "a.pdf" (Json.str "d1") rfl rfl (by decide)⟩

/-- C5, counterexample: a converse response missing both `answer` and
`assistantText` (and not a raw string body) does NOT make the query fail:
at body `{}` the code appends a normal assistant message with empty content
and records no error, contradicting "fail rather than produce an assistant
answer message". -/
theorem claim_C5_counterexample :
    (sendQuery "hi" (.success (Json.obj [])) (initState none "t")).1.messages =
      (initState none "t").messages ++
        [⟨makeId "u-" 0, Role.user, "hi", some "t"⟩,
         ⟨makeId "a-" 1, Role.assistant, "", none⟩] ∧
      (sendQuery "hi" (.success (Json.obj [])) (initState none "t")).1.error = none := by
  have hne : jsTrim "hi" ≠ "" := by decide
  refine ⟨?_, ?_⟩
  · simp [sendQuery, hne, sendQueryStart, sendQueryFinish, pushMessage, initState,
      converseAnswer, jGet, jLookup, jsString]
  · simp [sendQuery, hne, sendQueryStart, sendQueryFinish, pushMessage, initState]

/-- C5, amended: an upload response with none of `file.id`, `docId`, `id`
fails with the `Upload response missing id` error and leaves the active
document unchanged (as claimed); but a converse response missing both
`answer` and `assistantText` (and not a raw string body) succeeds, appending
one assistant message with empty content and recording no error. -/
theorem claim_C5 (data : Json) (s : ChatState) (localName : String)
    (body : Json) (q : String) (s2 : ChatState)
    (hf : s.uploadedFile = some localName)
    (hid : uploadId data = none)
    (hq : jsTrim q ≠ "")
    (hanswer : jGet body "answer" = none) (hassist : jGet body "assistantText" = none)
    (hstr : ∀ t, body ≠ Json.str t) :
    ((handleUpload (.success data) s).uploadedDoc = s.uploadedDoc ∧
      (handleUpload (.success data) s).error = some "Upload response missing id") ∧
    ((sendQuery q (.success body) s2).1.messages =
        (sendQueryStart q s2).1.messages ++
          [⟨makeId "a-" (s2.nextId + 1), Role.assistant, "", none⟩] ∧
      (sendQuery q (.success body) s2).1.error = none) := by
  have hba : converseAnswer body = "" := by
    unfold converseAnswer
    rw [hanswer, hassist]
    cases body with
    | str t => exact absurd rfl (hstr t)
    | null => simp [jsString]
    | bool b => simp [jsString]
    | num n => simp [jsString]
    | arr elems => simp [jsString]
    | obj fields => simp [jsString]
  refine ⟨⟨?_, ?_⟩, ?_, ?_⟩
  · simp [handleUpload, hf, hid]
  · simp [handleUpload, hf, hid]
  · simp [sendQuery, hq, sendQueryStart, sendQueryFinish, pushMessage, hba]
  · simp [sendQuery, hq, sendQueryStart, sendQueryFinish, pushMessage]



/-- Witness for C5: upload response `{status:"ok"}` and converse body `{}`. -/
theorem claim_C5_witness :
    (({ initState none "t" with
          uploadedFile := some "a.pdf"
          uploadedDoc := some ⟨Json.str "old", Json.str "old.pdf"⟩ } :
        ChatState).uploadedFile = some "a.pdf" ∧
      uploadId (Json.obj [("status", Json.str "ok")]) = none ∧
      jsTrim "hi" ≠ "" ∧
      jGet (Json.obj []) "answer" = none ∧
      jGet (Json.obj []) "assistantText" = none ∧
      ∀ t, Json.obj [] ≠ Json.str t) ∧
    (((handleUpload (.success (Json.obj [("status", Json.str "ok")]))
          { initState none "t" with
              uploadedFile := some "a.pdf"
              uploadedDoc := some ⟨Json.str "old", Json.str "old.pdf"⟩ }).uploadedDoc =
        ({ initState none "t" with
              uploadedFile := some "a.pdf"
              uploadedDoc := some ⟨Json.str "old", Json.str "old.pdf"⟩ } :
          ChatState).uploadedDoc ∧
      (handleUpload (.success (Json.obj [("status", Json.str "ok")]))
          { initState none "t" with
              uploadedFile := some "a.pdf"
              uploadedDoc := some ⟨Json.str "old", Json.str "old.pdf"⟩ }).error =
        some "Upload response missing id") ∧
    ((sendQuery "hi" (.success (Json.obj [])) (initState none "t")).1.messages =
        (sendQueryStart "hi" (initState none "t")).1.messages ++
          [⟨makeId "a-" ((initState none "t").nextId + 1), Role.assistant, "", none⟩] ∧
      (sendQuery "hi" (.success (Json.obj [])) (initState none "t")).1.error = none)) :=
  ⟨⟨rfl, rfl, by decide, rfl, rfl, fun _ h => nomatch h⟩,
   claim_C5 (Json.obj [("status", Json.str "ok")])
     { initState none "t" with
         uploadedFile := some "a.pdf"
         uploadedDoc := some ⟨Json.str "old", Json.str "old.pdf"⟩ }
     "a.pdf" (Json.obj []) "hi" (initState none "t")
     rfl rfl (by decide) rfl rfl (fun _ h => nomatch h)⟩

/-- C8: when transcription succeeds, a transcript (under `question`, else
`transcript`) that is a string non-empty after trimming is forwarded exactly
as a `sendQuery` call; otherwise (empty, missing, or not a string) exactly
one "I couldn't hear a question." assistant notice is appended and no
converse request is sent. -/
theorem claim_C8 (j : Json) (co : ConverseOutcome) (s : ChatState) :
    (∀ t, voiceTranscript j = some (Json.str t) → jsTrim t ≠ "" →
       handleVoiceStop (.success j) co s = sendQuery t co { s with isRecording := false }) ∧
    ((¬ ∃ t, voiceTranscript j = some (Json.str t) ∧ jsTrim t ≠ "") →
       (handleVoiceStop (.success j) co s).1.messages =
           s.messages ++
             [⟨makeId "a-" s.nextId, Role.assistant, "I couldn't hear a question.", none⟩] ∧
         (handleVoiceStop (.success j) co s).2 = none)
    := by
  constructor
  · intro t ht htr
    simp [handleVoiceStop, ht, htr]
  · intro h
    cases hv : voiceTranscript j with
    | none => simp [handleVoiceStop, hv, pushMessage]
    | some v =>
      cases v with
      | str u =>
        have hu : jsTrim u = "" := by
          by_contra hne
          exact h ⟨u, hv, hne⟩
        simp [handleVoiceStop, hv, hu, pushMessage]
      | null => simp [handleVoiceStop, hv, pushMessage]
      | bool b => simp [handleVoiceStop, hv, pushMessage]
      | num n => simp [handleVoiceStop, hv, pushMessage]
      | arr elems => simp [handleVoiceStop, hv, pushMessage]
      | obj fields => simp [handleVoiceStop, hv, pushMessage]

/-- Witness for C8: transcript `What is x?` under `question` is forwarded;
an empty response object yields the notice and no request. -/
theorem claim_C8_witness :
    ((voiceTranscript (Json.obj [("question", Json.str "What is x?")]) =
          some (Json.str "What is x?") ∧ jsTrim "What is x?" ≠ "") ∧
      handleVoiceStop (.success (Json.obj [("question", Json.str "What is x?")]))
          (.netError "e") (initState none "t") =
        sendQuery "What is x?" (.netError "e")
          { initState none "t" with isRecording := false }) ∧
    ((¬ ∃ t, voiceTranscript (Json.obj []) = some (Json.str t) ∧ jsTrim t ≠ "") ∧
      (handleVoiceStop (.success (Json.obj [])) (.netError "e")
            (initState none "t")).1.messages =
          (initState none "t").messages ++
            [⟨makeId "a-" (initState none "t").nextId, Role.assistant,
              "I couldn't hear a question.", none⟩] ∧
        (handleVoiceStop (.success (Json.obj [])) (.netError "e")
            (initState none "t")).2 = none) :=
  ⟨⟨⟨rfl, by decide⟩,
    (claim_C8 (Json.obj [("question", Json.str "What is x?")]) (.netError "e")
        (initState none "t")).1 "What is x?" rfl (by decide)⟩,
   ⟨by simp [voiceTranscript, jGet, jLookup],
    (claim_C8 (Json.obj []) (.netError "e") (initState none "t")).2
      (by simp [voiceTranscript, jGet, jLookup])⟩⟩

/-!
## State-machine lemmas: conversation id and message log
-/
theorem sendQuery_conv (q : String) (co : ConverseOutcome) (s : ChatState) :
    (sendQuery q co s).1.conversationId = s.conversationId ∧
      (sendQuery q co s).1.storedConvId = s.storedConvId := by
  unfold sendQuery
  split
  · exact ⟨rfl, rfl⟩
  · cases co <;> simp [sendQueryStart, sendQueryFinish, pushMessage]

theorem handleSendMessage_conv (co : ConverseOutcome) (s : ChatState) :
    (handleSendMessage co s).conversationId = s.conversationId ∧
      (handleSendMessage co s).storedConvId = s.storedConvId := by
  unfold handleSendMessage
  split
  · exact ⟨rfl, rfl⟩
  · exact sendQuery_conv _ _ _

theorem handleAskAgoraLearn_conv (co : ConverseOutcome) (s : ChatState) :
    (handleAskAgoraLearn co s).conversationId = s.conversationId ∧
      (handleAskAgoraLearn co s).storedConvId = s.storedConvId := by
  unfold handleAskAgoraLearn
  split
  · exact ⟨rfl, rfl⟩
  · exact sendQuery_conv _ _ _

theorem handleUpload_conv (o : UploadOutcome) (s : ChatState) :
    (handleUpload o s).conversationId = s.conversationId ∧
      (handleUpload o s).storedConvId = s.storedConvId := by
  unfold handleUpload
  repeat' split
  all_goals exact ⟨rfl, rfl⟩

theorem handleVoiceStop_conv (vo : VoiceOutcome) (co : ConverseOutcome) (s : ChatState) :
    (handleVoiceStop vo co s).1.conversationId = s.conversationId ∧
      (handleVoiceStop vo co s).1.storedConvId = s.storedConvId := by
  unfold handleVoiceStop
  repeat' split
  all_goals first
    | exact ⟨rfl, rfl⟩
    | exact sendQuery_conv _ _ _

theorem sendQuery_messages (q : String) (co : ConverseOutcome) (s : ChatState) :
    ∃ tail, (sendQuery q co s).1.messages = s.messages ++ tail := by
  unfold sendQuery
  split
  · exact ⟨[], by simp⟩
  · cases co with
    | success body =>
      refine ⟨[⟨makeId "u-" s.nextId, Role.user, q, some s.now⟩,
        ⟨makeId "a-" (s.nextId + 1), Role.assistant, converseAnswer body, none⟩], ?_⟩
      simp [sendQueryStart, sendQueryFinish, pushMessage]
    | httpError status =>
      refine ⟨[⟨makeId "u-" s.nextId, Role.user, q, some s.now⟩,
        ⟨makeId "a-" (s.nextId + 1), Role.assistant, fallbackText, none⟩], ?_⟩
      simp [sendQueryStart, sendQueryFinish, pushMessage]
    | netError msg =>
      refine ⟨[⟨makeId "u-" s.nextId, Role.user, q, some s.now⟩,
        ⟨makeId "a-" (s.nextId + 1), Role.assistant, fallbackText, none⟩], ?_⟩
      simp [sendQueryStart, sendQueryFinish, pushMessage]

theorem handleSendMessage_messages (co : ConverseOutcome) (s : ChatState) :
    ∃ tail, (handleSendMessage co s).messages = s.messages ++ tail := by
  unfold handleSendMessage
  split
  · exact ⟨[], by simp⟩
  · exact sendQuery_messages _ _ _

theorem handleAskAgoraLearn_messages (co : ConverseOutcome) (s : ChatState) :
    ∃ tail, (handleAskAgoraLearn co s).messages = s.messages ++ tail := by
  unfold handleAskAgoraLearn
  split
  · exact ⟨[], by simp⟩
  · exact sendQuery_messages _ _ _

theorem handleUpload_messages (o : UploadOutcome) (s : ChatState) :
    (handleUpload o s).messages = s.messages := by
  unfold handleUpload
  repeat' split
  all_goals rfl

theorem handleVoiceStop_messages (vo : VoiceOutcome) (co : ConverseOutcome) (s : ChatState) :
    ∃ tail, (handleVoiceStop vo co s).1.messages = s.messages ++ tail := by
  unfold handleVoiceStop
  repeat' split
  all_goals first
    | exact sendQuery_messages _ _ _
    | (refine ⟨[⟨makeId "a-" s.nextId, Role.assistant, "I couldn't hear a question.", none⟩], ?_⟩
       simp [pushMessage]
       done)
    | (refine ⟨[⟨makeId "a-" s.nextId, Role.assistant, "Voice processing failed.", none⟩], ?_⟩
       simp [pushMessage]
       done)

/-- Every event either leaves the message log unchanged or appends to it. -/
theorem step_messages {s s' : ChatState} (h : Step s s') :
    ∃ tail, s'.messages = s.messages ++ tail := by
  cases h with
  | convInit n =>
    unfold convEffect
    split
    · exact ⟨[], by simp⟩
    · exact ⟨[], by simp⟩
  | send q co => exact sendQuery_messages q co s
  | sendFromInput co => exact handleSendMessage_messages co s
  | askSelection co => exact handleAskAgoraLearn_messages co s
  | upload o => exact ⟨[], by simp [handleUpload_messages]⟩
  | voiceStop vo co => exact handleVoiceStop_messages vo co s
  | _ => exact ⟨[], by simp⟩

/-- The log is never empty in a reachable state. -/
theorem reachable_messages_ne_nil {s : ChatState} (h : Reachable s) :
    s.messages ≠ [] := by
  induction h with
  | init stored now => simp [initState]
  | step hr hst ih =>
    obtain ⟨tail, ht⟩ := step_messages hst
    rw [ht]
    intro hc
    rw [List.append_eq_nil] at hc
    exact ih hc.1



theorem makeId_conv_ne_empty (n : Nat) : makeId "conv-" n ≠ "" := by
  unfold makeId
  intro h
  have h2 : ("conv-" ++ toString n).data = ("" : String).data := by rw [h]
  rw [String.data_append] at h2
  simp at h2

/-- No event changes a non-empty conversation id or its stored copy. -/
theorem step_conv {s s' : ChatState} (h : Step s s') (v : String) (hv : v ≠ "")
    (hc : s.conversationId = some v) (hst : s.storedConvId = some v) :
    s'.conversationId = some v ∧ s'.storedConvId = some v := by
  cases h with
  | convInit n => simp [convEffect, hc, hv, hst]
  | send q co =>
    have h2 := sendQuery_conv q co s
    exact ⟨h2.1.trans hc, h2.2.trans hst⟩
  | sendFromInput co =>
    have h2 := handleSendMessage_conv co s
    exact ⟨h2.1.trans hc, h2.2.trans hst⟩
  | askSelection co =>
    have h2 := handleAskAgoraLearn_conv co s
    exact ⟨h2.1.trans hc, h2.2.trans hst⟩
  | upload o =>
    have h2 := handleUpload_conv o s
    exact ⟨h2.1.trans hc, h2.2.trans hst⟩
  | voiceStop vo co =>
    have h2 := handleVoiceStop_conv vo co s
    exact ⟨h2.1.trans hc, h2.2.trans hst⟩
  | _ => exact ⟨hc, hst⟩

/-- C7: the conversation id is read from storage at startup; the bootstrap
effect generates and stores a fresh id exactly when the current one is
falsy, and is a no-op otherwise; no event of the component changes a
non-empty id or its stored copy; and across two sequential application
loads with the stored value persisting, the second load observes the
identical identifier. -/
theorem claim_C7 :
    (∀ stored now, (initState stored now).conversationId = stored ∧
        (initState stored now).storedConvId = stored) ∧
    (∀ (s : ChatState) n, (s.conversationId = none ∨ s.conversationId = some "") →
        convEffect n s =
          { s with
            conversationId := some (makeId "conv-" n)
            storedConvId := some (makeId "conv-" n) }) ∧
    (∀ (s : ChatState) n v, v ≠ "" → s.conversationId = some v → convEffect n s = s) ∧
    (∀ (s s' : ChatState) v, Step s s' → v ≠ "" → s.conversationId = some v →
        s.storedConvId = some v →
        s'.conversationId = some v ∧ s'.storedConvId = some v) ∧
    (∀ now now' n m,
        (convEffect m (initState
              (convEffect n (initState none now)).storedConvId now')).conversationId =
            (convEffect n (initState none now)).conversationId ∧
          (convEffect m (initState
              (convEffect n (initState none now)).storedConvId now')).storedConvId =
            (convEffect n (initState none now)).storedConvId) := by
  refine ⟨?_, ?_, ?_, ?_, ?_⟩
  · intro stored now
    exact ⟨rfl, rfl⟩
  · intro s n h
    unfold convEffect
    rw [if_pos h]
  · intro s n v hv hc
    unfold convEffect
    rw [if_neg]
    simp [hc, hv]
  · intro s s' v hstep hv hc hst
    exact step_conv hstep v hv hc hst
  · intro now now' n m
    simp [convEffect, initState, makeId_conv_ne_empty n]

/-- Witness for C7 at concrete stored values and loads. -/
theorem claim_C7_witness :
    ((initState (some "conv-keep") "t").conversationId = some "conv-keep" ∧
        (initState (some "conv-keep") "t").storedConvId = some "conv-keep") ∧
      convEffect 5 { initState (some "conv-keep") "t" with inputValue := "x" } =
        { initState (some "conv-keep") "t" with inputValue := "x" } ∧
      ("conv-keep" ≠ "" ∧
        Step (initState (some "conv-keep") "t")
          { initState (some "conv-keep") "t" with inputValue := "x" }) ∧
      ({ initState (some "conv-keep") "t" with
          inputValue := "x" } : ChatState).conversationId = some "conv-keep" ∧
      ({ initState (some "conv-keep") "t" with
          inputValue := "x" } : ChatState).storedConvId = some "conv-keep" ∧
      ((convEffect 2 (initState
            (convEffect 1 (initState none "t")).storedConvId "t2")).conversationId =
          (convEffect 1 (initState none "t")).conversationId ∧
        (convEffect 2 (initState
            (convEffect 1 (initState none "t")).storedConvId "t2")).storedConvId =
          (convEffect 1 (initState none "t")).storedConvId) :=
  ⟨claim_C7.1 (some "conv-keep") "t",
   claim_C7.2.2.1 { initState (some "conv-keep") "t" with inputValue := "x" } 5
     "conv-keep" (by decide) rfl,
   ⟨by decide, Step.typeInput "x" (initState (some "conv-keep") "t")⟩,
   (claim_C7.2.2.2.1 (initState (some "conv-keep") "t")
     { initState (some "conv-keep") "t" with inputValue := "x" } "conv-keep"
     (Step.typeInput "x" (initState (some "conv-keep") "t")) (by decide) rfl rfl).1,
   (claim_C7.2.2.2.1 (initState (some "conv-keep") "t")
     { initState (some "conv-keep") "t" with inputValue := "x" } "conv-keep"
     (Step.typeInput "x" (initState (some "conv-keep") "t")) (by decide) rfl rfl).2,
   claim_C7.2.2.2.2 "t" "t2" 1 2⟩

/-- C10: the log starts as exactly one assistant welcome message, every
event only appends to it, and hence the log length is never zero in a
reachable state — the view's `messages.length === 0` branch is
unreachable. -/
theorem claim_C10 :
    (∀ stored now, (initState stored now).messages = [welcomeMessage now] ∧
        (welcomeMessage now).role = Role.assistant) ∧
    (∀ (s s' : ChatState), Step s s' → ∃ tail, s'.messages = s.messages ++ tail) ∧
    (∀ s : ChatState, Reachable s → s.messages.length ≠ 0) := by
  refine ⟨?_, ?_, ?_⟩
  · intro stored now
    exact ⟨rfl, rfl⟩
  · intro s s' h
    exact step_messages h
  · intro s h
    have := reachable_messages_ne_nil h
    simpa [List.length_eq_zero] using this

/-- Witness for C10 at the initial state and a typing step. -/
theorem claim_C10_witness :
    (Reachable (initState none "t") ∧
        Step (initState none "t") { initState none "t" with inputValue := "x" }) ∧
      (initState none "t").messages.length ≠ 0 ∧
      ∃ tail, ({ initState none "t" with inputValue := "x" } : ChatState).messages =
        (initState none "t").messages ++ tail :=
  ⟨⟨Reachable.init none "t", Step.typeInput "x" (initState none "t")⟩,
   claim_C10.2.2 (initState none "t") (Reachable.init none "t"),
   claim_C10.2.1 (initState none "t") { initState none "t" with inputValue := "x" }
     (Step.typeInput "x" (initState none "t"))⟩

end AgoraLearn
